import Mathlib

/-!
Verification development for the Ancestrario repository
(`Ancestrario.py`, a Streamlit viewer of formalized territories).

The Python program is shallowly embedded: pandas data frames become lists
of records, Python strings become Lean strings (lists of characters),
floating-point quantities become rationals, and the Streamlit rendering of
one interaction becomes a pure function from the inputs to a record of the
UI outputs.  Components that the specification describes but that are not
present in the single source file (the overlay analyzer and the projection
helper of the fuller revision) are modelled from the specification and are
marked as such in their doc comments.
-/

namespace Ancestrario

/-! ## Python string primitives

Embeddings of the Python string operations the script uses:
`in` (plain substring containment), `str.lower`, `str.strip`, and the
pandas `Series.str.contains` test, which interprets its argument as a
regular expression (`re.search`).  Only the regex fragment the proofs
need is modelled: a pattern is a list of characters in which `.` matches
any single character and every other character matches itself; this is
faithful to Python exactly for patterns whose only metacharacter is `.`,
and in particular for metacharacter-free (literal) patterns.
-/

/-- Substring containment on character lists: Python's `sub in s`. -/
def contieneSub (sub : List Char) : List Char → Bool
  | [] => sub.isEmpty
  | c :: cs => sub.isPrefixOf (c :: cs) || contieneSub sub cs

/-- Python's `sub in s` on strings. -/
def pyIn (sub s : String) : Bool := contieneSub sub.data s.data

/-- One regex window: does the pattern match a prefix of `s`, with `.`
matching any character? -/
def matchHere : List Char → List Char → Bool
  | [], _ => true
  | _ :: _, [] => false
  | p :: ps, c :: cs => (p == '.' || p == c) && matchHere ps cs

/-- `re.search` for the modelled fragment: the pattern matches at some
position of `s`. -/
def reSearchL (pat : List Char) : List Char → Bool
  | [] => matchHere pat []
  | c :: cs => matchHere pat (c :: cs) || reSearchL pat cs

/-- pandas `Series.str.contains pat` applied to the string `s`
(regex semantics, default flags). -/
def pdStrContains (s pat : String) : Bool := reSearchL pat.data s.data

/-- Characters that are regular-expression metacharacters in Python,
identified by code point: `. ^ $ * + ? \ | ( ) [ ]` and the two braces. -/
def esMetachar (c : Char) : Bool :=
  c.toNat = 46 || c.toNat = 94 || c.toNat = 36 || c.toNat = 42 ||
  c.toNat = 43 || c.toNat = 63 || c.toNat = 92 || c.toNat = 124 ||
  c.toNat = 40 || c.toNat = 41 || c.toNat = 91 || c.toNat = 93 ||
  c.toNat = 123 || c.toNat = 125

theorem contieneSub_iff (sub s : List Char) :
    contieneSub sub s = true ↔ sub <:+: s := by
  induction s with
  | nil =>
    simp [contieneSub, List.isEmpty_iff]
  | cons c cs ih =>
    simp only [contieneSub, Bool.or_eq_true, List.isPrefixOf_iff_prefix, ih,
      List.infix_cons_iff]

theorem matchHere_eq_isPrefixOf (pat : List Char) (hp : ∀ c ∈ pat, c ≠ '.') :
    ∀ s : List Char, matchHere pat s = pat.isPrefixOf s := by
  induction pat with
  | nil => intro s; cases s <;> rfl
  | cons p ps ih =>
    intro s
    cases s with
    | nil => rfl
    | cons c cs =>
      have hpd : (p == '.') = false :=
        beq_eq_false_iff_ne.mpr (hp p (List.mem_cons_self p ps))
      have hps : ∀ c ∈ ps, c ≠ '.' := fun x hx => hp x (List.mem_cons_of_mem p hx)
      simp only [matchHere, List.isPrefixOf, hpd, Bool.false_or, ih hps cs]

theorem reSearchL_iff (pat s : List Char) (hp : ∀ c ∈ pat, c ≠ '.') :
    reSearchL pat s = true ↔ pat <:+: s := by
  induction s with
  | nil =>
    rw [reSearchL, matchHere_eq_isPrefixOf pat hp]
    simp [List.isPrefixOf_iff_prefix]
  | cons c cs ih =>
    rw [reSearchL, Bool.or_eq_true, matchHere_eq_isPrefixOf pat hp, ih,
      List.isPrefixOf_iff_prefix, List.infix_cons_iff]

/-- For a metacharacter-free pattern, the pandas regex test coincides with
plain substring containment. -/
theorem pdStrContains_como_subcadena (s pat : String)
    (hp : ∀ c ∈ pat.data, esMetachar c = false) :
    pdStrContains s pat = true ↔ pat.data <:+: s.data := by
  apply reSearchL_iff
  intro c hc hdot
  have := hp c hc
  rw [hdot] at this
  simp [esMetachar] at this

/-! ## Data model of the loaded attribute table

One row of the territory table, with the columns the script reads
(`ID_ANT`, `NOMBRE`, `Tipo`, `DEPARTAMEN`, `MUNICIPIO`, `AREA_TOTAL`).
`ID_ANT` is stored as its string rendering, matching the script's
`astype(str)` before filtering; `AREA_TOTAL` (declared hectares) is a
rational standing for the Python float. -/
structure Row where
  id_ant : String
  nombre : String
  tipo : String
  departamen : String
  municipio : String
  area_total : ℚ
deriving DecidableEq

/-- The five sidebar filter inputs: free text for the identifier, the
selectbox value for the name (empty string when unset), and the three
multiselect lists. -/
structure Filtros where
  id_input : String
  nombre_input : String
  tipo_sel : List String
  depto_sel : List String
  mpio_sel : List String
deriving DecidableEq

/-- The filter chain of `Ancestrario.py` lines 155 to 165: starting from a
copy of the base frame, each non-empty input filters the rows, with
`ID_ANT` tested by the pandas regex `contains`, `NOMBRE` by equality, and
the three multiselects by membership (`isin`). -/
def aplicarFiltros (rows : List Row) (f : Filtros) : List Row :=
  let g0 := rows
  let g1 := if f.id_input = "" then g0 else
    g0.filter fun r => pdStrContains r.id_ant f.id_input
  let g2 := if f.nombre_input = "" then g1 else
    g1.filter fun r => r.nombre == f.nombre_input
  let g3 := if f.tipo_sel = [] then g2 else
    g2.filter fun r => f.tipo_sel.contains r.tipo
  let g4 := if f.depto_sel = [] then g3 else
    g3.filter fun r => f.depto_sel.contains r.departamen
  let g5 := if f.mpio_sel = [] then g4 else
    g4.filter fun r => f.mpio_sel.contains r.municipio
  g5

/-- Membership in one guarded filtering step: the step keeps a row iff the
row was there and, when the guard is off (the input is active), the row
passes the test. -/
theorem mem_pasoFiltro {α : Type} {b : Prop} [Decidable b] {l : List α}
    {p : α → Bool} {r : α} :
    r ∈ (if b then l else l.filter p) ↔ r ∈ l ∧ (¬ b → p r = true) := by
  split_ifs with h
  · simp [h]
  · simp only [List.mem_filter]
    exact ⟨fun ⟨h1, h2⟩ => ⟨h1, fun _ => h2⟩, fun ⟨h1, h2⟩ => ⟨h1, h2 h⟩⟩

/-- Conjunctive characterization of the filter chain, stated with the
code's own row tests. -/
theorem mem_aplicarFiltros (rows : List Row) (f : Filtros) (r : Row) :
    r ∈ aplicarFiltros rows f ↔ r ∈ rows ∧
      (f.id_input ≠ "" → pdStrContains r.id_ant f.id_input = true) ∧
      (f.nombre_input ≠ "" → r.nombre = f.nombre_input) ∧
      (f.tipo_sel ≠ [] → r.tipo ∈ f.tipo_sel) ∧
      (f.depto_sel ≠ [] → r.departamen ∈ f.depto_sel) ∧
      (f.mpio_sel ≠ [] → r.municipio ∈ f.mpio_sel) := by
  show r ∈ (if f.mpio_sel = [] then _ else _) ↔ _
  rw [mem_pasoFiltro, mem_pasoFiltro, mem_pasoFiltro, mem_pasoFiltro,
    mem_pasoFiltro]
  simp only [List.contains, List.elem_iff, beq_iff_eq]
  tauto

/-! ## Python `lower` and `strip`

`str.lower` is embedded on the ASCII letters (the case folding the
classification strings exercise); every other character is left
unchanged, which agrees with Python on all characters that can interact
with the ASCII search patterns used by the script.  `str.strip` removes
Python whitespace (space, tab, newline, carriage return, vertical tab,
form feed) from both ends. -/

/-- Python whitespace, identified by code point. -/
def esEspacio (c : Char) : Bool :=
  c.toNat = 32 || c.toNat = 9 || c.toNat = 10 ||
  c.toNat = 13 || c.toNat = 11 || c.toNat = 12

/-- ASCII case folding of one character: an upper-case letter moves down
by 32 code points, anything else is unchanged. -/
def pyLowerChar (c : Char) : Char :=
  if 65 ≤ c.toNat ∧ c.toNat ≤ 90 then Char.ofNat (c.toNat + 32) else c

/-- Python `s.lower()`. -/
def pyLower (s : String) : String := ⟨s.data.map pyLowerChar⟩

/-- `strip` on a character list: drop whitespace from both ends. -/
def stripL (l : List Char) : List Char :=
  (((l.dropWhile esEspacio).reverse.dropWhile esEspacio).reverse)

/-- Python `s.strip()`. -/
def pyStrip (s : String) : String := ⟨stripL s.data⟩

theorem toNat_ofNat_of_valid {n : ℕ} (h : n.isValidChar) :
    (Char.ofNat n).toNat = n := by
  rw [Char.ofNat, dif_pos h]; rfl

theorem esEspacio_pyLowerChar (c : Char) :
    esEspacio (pyLowerChar c) = esEspacio c := by
  unfold pyLowerChar
  split_ifs with h
  · have hv : (c.toNat + 32).isValidChar := Or.inl (by omega)
    have hL : esEspacio (Char.ofNat (c.toNat + 32)) = false := by
      simp only [esEspacio, toNat_ofNat_of_valid hv, Bool.or_eq_false_iff,
        decide_eq_false_iff_not]
      omega
    have hR : esEspacio c = false := by
      simp only [esEspacio, Bool.or_eq_false_iff, decide_eq_false_iff_not]
      omega
    rw [hL, hR]
  · rfl

theorem stripL_map_pyLowerChar (l : List Char) :
    stripL (l.map pyLowerChar) = (stripL l).map pyLowerChar := by
  have hpf : esEspacio ∘ pyLowerChar = esEspacio :=
    funext fun c => esEspacio_pyLowerChar c
  unfold stripL
  rw [List.dropWhile_map, hpf, ← List.map_reverse, List.dropWhile_map, hpf,
    ← List.map_reverse]

/-- Lowercasing and stripping commute, so the two normalization orders in
the script (lines 185 and 287) produce the same string. -/
theorem pyStrip_pyLower (s : String) :
    pyStrip (pyLower s) = pyLower (pyStrip s) := by
  show String.mk (stripL (s.data.map pyLowerChar)) =
    String.mk ((stripL s.data).map pyLowerChar)
  rw [stripL_map_pyLowerChar]

/-! ## Statistics block (lines 283 to 289)

`int` and `round` follow Python: `int` truncates toward zero and `round`
rounds half to even.  The pandas float sum is embedded as a rational
sum. -/

/-- Python `int(q)`: truncation toward zero. -/
def pyInt (q : ℚ) : ℤ := if 0 ≤ q then ⌊q⌋ else ⌈q⌉

/-- Python `round(q)`: nearest integer, ties to the even neighbor. -/
def pyRound (q : ℚ) : ℤ :=
  if Int.fract q < 1/2 then ⌊q⌋
  else if 1/2 < Int.fract q then ⌊q⌋ + 1
  else if ⌊q⌋ % 2 = 0 then ⌊q⌋ else ⌊q⌋ + 1

/-- Line 284: `area_total = gdf_filtrado["AREA_TOTAL"].sum()`. -/
def areaTotalSum (rows : List Row) : ℚ := (rows.map Row.area_total).sum

/-- Line 285: `hectareas = int(area_total)`. -/
def hectareas (rows : List Row) : ℤ := pyInt (areaTotalSum rows)

/-- Line 286: `metros2 = int(round((area_total - hectareas) * 10000))`. -/
def metros2 (rows : List Row) : ℤ :=
  pyRound ((areaTotalSum rows - (hectareas rows : ℚ)) * 10000)

/-! ## Type classification (lines 184 to 194 and 287 to 289) -/

/-- The style record produced by `estilo_tipo` for one feature. -/
structure Estilo where
  fillColor : String
  color : String
  weight : ℕ
  fillOpacity : ℚ
deriving DecidableEq

/-- Lines 184 to 194: the feature's `Tipo` is stripped then lowercased;
green when it contains `indigena`, otherwise the brown that the map
legend labels as community council.  Fill opacity follows the
visualization option. -/
def estilo_tipo (tipo : String) (viz : String) : Estilo :=
  let t := pyLower (pyStrip tipo)
  let base := if pyIn "indigena" t then "#228B22" else "#8B4513"
  { fillColor := base, color := base, weight := 2,
    fillOpacity := if viz = "Con Relleno" then 1/2 else 0 }

/-- Line 287: `Tipo` lowercased then stripped. -/
def tipo_normalizado (tipo : String) : String := pyStrip (pyLower tipo)

/-- Line 288 on one row: `.str.contains("indigena")`. -/
def cuentaIndigenaB (tipo : String) : Bool :=
  pdStrContains (tipo_normalizado tipo) "indigena"

/-- Line 289 on one row: `.str.contains("comunitario")`. -/
def cuentaConsejoB (tipo : String) : Bool :=
  pdStrContains (tipo_normalizado tipo) "comunitario"

/-- Line 288: `cuenta_indigena`, the count of matching rows. -/
def cuenta_indigena (rows : List Row) : ℕ :=
  (rows.filter fun r => cuentaIndigenaB r.tipo).length

/-- Line 289: `cuenta_consejo`, the count of matching rows. -/
def cuenta_consejo (rows : List Row) : ℕ :=
  (rows.filter fun r => cuentaConsejoB r.tipo).length

/-- The classification as the specification words it: the type string,
lowercased and stripped, contains the substring `indigena`. -/
def claseIndigenaSpec (tipo : String) : Bool :=
  pyIn "indigena" (pyStrip (pyLower tipo))

/-- The specification's community council test: the normalized type
contains the substring `comunitario`. -/
def claseConsejoSpec (tipo : String) : Bool :=
  pyIn "comunitario" (pyStrip (pyLower tipo))

/-! ## Rendering of one interaction (lines 167 to 334)

The observable outputs of one script run are collected in a record: the
single-territory banner, whether the map is rendered, the displayed
table, the statistics block, the three export affordances, and the
empty-result warning. -/

structure Salida where
  titulo : Option String
  mapa : Bool
  tabla : Option (List Row)
  statsTotal : Option ℕ
  statsIndigena : Option ℕ
  statsConsejo : Option ℕ
  statsHectareas : Option ℤ
  statsMetros2 : Option ℤ
  csvExport : Bool
  shpExport : Bool
  htmlExport : Bool
  advertencia : Option String
deriving DecidableEq

/-- The run before the map is requested, or outside the map branch:
nothing is emitted. -/
def salidaVacia : Salida :=
  ⟨none, false, none, none, none, none, none, none, false, false, false, none⟩

/-- Line 334: the `st.warning` text shown when the filters match
nothing. -/
def avisoSinResultados : String :=
  "⚠️ No se encontraron resultados con los filtros aplicados."

/-- Lines 167 to 334: with the map requested, a non-empty filtered frame
produces the banner (when exactly one row), the map, the table, the
statistics and the export buttons; an empty one produces only the
warning.  Without the map request nothing is produced. -/
def render (mostrarMapa exportarHtml : Bool) (filtrado : List Row) : Salida :=
  let titulo := if mostrarMapa && filtrado.length == 1 then
    filtrado.head?.map Row.nombre else none
  if mostrarMapa then
    if filtrado.isEmpty then
      { salidaVacia with
          titulo := titulo
          advertencia := some avisoSinResultados }
    else
      { titulo := titulo
        mapa := true
        tabla := some filtrado
        statsTotal := some filtrado.length
        statsIndigena := some (cuenta_indigena filtrado)
        statsConsejo := some (cuenta_consejo filtrado)
        statsHectareas := some (hectareas filtrado)
        statsMetros2 := some (metros2 filtrado)
        csvExport := true
        shpExport := true
        htmlExport := exportarHtml
        advertencia := none }
  else salidaVacia

/-- One full interaction: the cached base frame is copied (line 155), the
copy is filtered, the outputs are rendered; the base frame itself is
handed on unchanged, since every downstream operation works on the copy
or on further fresh frames. -/
def interaccion (base : List Row) (f : Filtros)
    (mostrarMapa exportarHtml : Bool) : List Row × Salida :=
  let copia := base
  let filtrado := aplicarFiltros copia f
  (base, render mostrarMapa exportarHtml filtrado)

/-- The base frame threaded through a whole sequence of interactions for
the lifetime of the process. -/
def vidaProceso (base : List Row) :
    List (Filtros × Bool × Bool) → List Row
  | [] => base
  | i :: rest => vidaProceso (interaccion base i.1 i.2.1 i.2.2).1 rest

/-! ## Coordinate reference systems and reprojection

A CRS is modelled as its EPSG code together with an invertible affine
change of coordinates relating it to one fixed canonical frame; real map
projections are invertible coordinate transforms, and the invariants the
claims state (idempotence, round trips, the target CRS of a load) depend
only on invertibility, not on the particular map formulas. -/

structure CRS where
  epsg : ℤ
  scale : ℚ
  dx : ℚ
  dy : ℚ
  scale_ne : scale ≠ 0

/-- Coordinates of a canonical-frame point as seen in the CRS `c`. -/
def fromCanon (c : CRS) (p : ℚ × ℚ) : ℚ × ℚ :=
  (c.scale * p.1 + c.dx, c.scale * p.2 + c.dy)

/-- Canonical-frame coordinates of a point given in the CRS `c`. -/
def toCanon (c : CRS) (p : ℚ × ℚ) : ℚ × ℚ :=
  ((p.1 - c.dx) / c.scale, (p.2 - c.dy) / c.scale)

theorem fromCanon_toCanon (c : CRS) (p : ℚ × ℚ) :
    fromCanon c (toCanon c p) = p := by
  obtain ⟨x, y⟩ := p
  unfold fromCanon toCanon
  have hs := c.scale_ne
  simp only [Prod.mk.injEq]
  constructor <;> field_simp

theorem toCanon_fromCanon (c : CRS) (p : ℚ × ℚ) :
    toCanon c (fromCanon c p) = p := by
  obtain ⟨x, y⟩ := p
  unfold fromCanon toCanon
  have hs := c.scale_ne
  simp only [Prod.mk.injEq]
  constructor <;> field_simp

/-- Modelled from the spec: the Geometry Projection Helper of section 4.2
is not in the source file (the source only calls the library transform at
line 83); a geometry is its CRS tag together with its coordinate list. -/
structure Geometry where
  crs : CRS
  coords : List (ℚ × ℚ)

/-- Modelled from the spec: `reproject(geometry, target_crs)` is a pure
coordinate transform into the target CRS, with no topology change. -/
def reproject (g : Geometry) (target : CRS) : Geometry :=
  ⟨target, g.coords.map fun p => fromCanon target (toCanon g.crs p)⟩

/-! ## Loading a shapefile from a ZIP (lines 55 to 83)

The archive is modelled as the list of the extracted files, each carrying
the feature collection that `gpd.read_file` would produce for it (only
consulted on the `.shp` entry the function selects). -/

/-- A feature collection as read from disk: its native CRS and the
coordinate lists of its features. -/
structure GeoFrame where
  crs : CRS
  feats : List (List (ℚ × ℚ))

/-- `GeoDataFrame.to_crs`: every coordinate of every feature is
transformed into the target CRS. -/
def to_crs (g : GeoFrame) (target : CRS) : GeoFrame :=
  ⟨target, g.feats.map fun f => f.map fun p => fromCanon target (toCanon g.crs p)⟩

/-- WGS84 geographic coordinates, the fixed CRS of line 83. -/
def crs4326 : CRS := ⟨4326, 1, 0, 0, one_ne_zero⟩

/-- One extracted file of the ZIP archive. -/
structure ZipEntry where
  nombre : String
  datos : GeoFrame

/-- The errors the loader can raise. -/
inductive ErrorCarga where
  | fileNotFound (msg : String) : ErrorCarga
deriving DecidableEq

/-- Line 81: the message of the `FileNotFoundError`. -/
def msgSinShp : String := "No se encontró ningún archivo .shp dentro del ZIP."

/-- Python `s.endswith(suf)`: the characters of `suf` are a suffix of the
characters of `s`. -/
def pyEndsWith (s suf : String) : Bool := suf.data.isSuffixOf s.data

/-- Lines 77 to 83: collect the extracted names ending in `.shp`; raise
`FileNotFoundError` when there are none, otherwise read the first one and
reproject it to EPSG:4326. -/
def cargar_shapefile_desde_zip (archivo : List ZipEntry) :
    Except ErrorCarga GeoFrame :=
  let shp_paths := archivo.filter fun e => pyEndsWith e.nombre ".shp"
  match shp_paths with
  | [] => .error (.fileNotFound msgSinShp)
  | e :: _ => .ok (to_crs e.datos crs4326)

/-! ## The overlay analyzer, modelled from the spec

The overlay workflow (tab 2 of the fuller revision) is not in the source
file; sections 3 and 4.1 of the specification define it.  Planar geometry
is abstracted as a finite set of unit grid cells in the projected
equal-area frame: intersection is set intersection, emptiness of the
intersection is the overlap test, and area in square meters is the number
of cells. -/

/-- Modelled from the spec: a planar geometry for the analyzer. -/
abbrev Geom := Finset (ℤ × ℤ)

/-- Modelled from the spec: area in m² measured in the projected frame. -/
def areaM2 (g : Geom) : ℚ := (g.card : ℚ)

/-- Modelled from the spec: a territory with its declared hectares
(`area_total`) and its geometry. -/
structure Territory where
  nombre : String
  area_total : ℚ
  geom : Geom
deriving DecidableEq

/-- Modelled from the spec: one derived intersection record. -/
structure IntersectionRecord where
  territory : Territory
  geomInter : Geom
  area_m2 : ℚ
  area_ha : ℚ
  pct_of_query : ℚ
  pct_of_territory : ℚ
deriving DecidableEq

/-- Rounding to two decimals, as Python `round(q, 2)`. -/
def round2 (q : ℚ) : ℚ := (pyRound (q * 100) : ℚ) / 100

/-- Modelled from the spec: the derived fields of section 3, with
`area_total` converted from hectares to m² by multiplying by 10000 and no
clamping of either percentage. -/
def mkIntersectionRecord (t : Territory) (queryArea : ℚ) (g : Geom) :
    IntersectionRecord :=
  { territory := t
    geomInter := g
    area_m2 := areaM2 g
    area_ha := areaM2 g / 10000
    pct_of_query := round2 (areaM2 g / queryArea * 100)
    pct_of_territory := round2 (areaM2 g / (t.area_total * 10000) * 100) }

/-- Modelled from the spec: `analyze(territories, query)` returns the
territories whose geometry meets the query together with one record per
territory whose pairwise intersection with the query is non-empty. -/
def analyze (ts : List Territory) (q : Geom) :
    List Territory × List IntersectionRecord :=
  (ts.filter fun t => decide (t.geom ∩ q).Nonempty,
   ts.filterMap fun t =>
     if (t.geom ∩ q) = ∅ then none
     else some (mkIntersectionRecord t (areaM2 q) (t.geom ∩ q)))

/-! ## Claim theorems -/

/-- C3: the reproject operation is idempotent — reprojecting a geometry
already in the target CRS returns an equivalent (here: equal) geometry —
and satisfies the round-trip law: reprojecting to CRS A, then to CRS B,
then back to A reproduces the coordinates of the single reprojection to A
exactly (epsilon zero in exact arithmetic). -/
theorem reproject_idempotente_y_viaje_redondo :
    (∀ g : Geometry, reproject g g.crs = g) ∧
    (∀ (g : Geometry) (A B : CRS),
      reproject (reproject (reproject g A) B) A = reproject g A) := by
  constructor
  · intro g
    obtain ⟨c, coords⟩ := g
    unfold reproject
    simp only [Geometry.mk.injEq, true_and]
    have hid : (fun p => fromCanon c (toCanon c p)) = id :=
      funext fun p => fromCanon_toCanon c p
    rw [hid, List.map_id]
  · intro g A B
    obtain ⟨c, coords⟩ := g
    unfold reproject
    simp only [Geometry.mk.injEq, true_and, List.map_map]
    congr 1
    funext p
    simp only [Function.comp_apply, toCanon_fromCanon]

/-- C4: loading from a ZIP archive yields the feature collection of the
first `.shp` entry reprojected to EPSG:4326 whenever the archive contains
a `.shp` file, and raises `FileNotFoundError` with its descriptive
message exactly when it contains none. -/
theorem cargar_desde_zip_eq (archivo : List ZipEntry) :
    cargar_shapefile_desde_zip archivo =
      match archivo.filter (fun e => pyEndsWith e.nombre ".shp") with
      | [] => Except.error (ErrorCarga.fileNotFound msgSinShp)
      | e :: _ => Except.ok (to_crs e.datos crs4326) := rfl

theorem cargar_shapefile_ok_o_error (archivo : List ZipEntry) :
    (cargar_shapefile_desde_zip archivo =
        Except.error (ErrorCarga.fileNotFound msgSinShp) ↔
      ∀ e ∈ archivo, pyEndsWith e.nombre ".shp" = false) ∧
    ((∃ e ∈ archivo, pyEndsWith e.nombre ".shp" = true) →
      ∃ e ∈ archivo, pyEndsWith e.nombre ".shp" = true ∧
        cargar_shapefile_desde_zip archivo = Except.ok (to_crs e.datos crs4326) ∧
        (to_crs e.datos crs4326).crs = crs4326) := by
  rw [cargar_desde_zip_eq]
  cases hf : archivo.filter (fun e => pyEndsWith e.nombre ".shp") with
  | nil =>
    constructor
    · constructor
      · intro _ e he
        simpa using List.filter_eq_nil_iff.mp hf e he
      · intro _; rfl
    · rintro ⟨e, he, hshp⟩
      exfalso
      have hmem : e ∈ archivo.filter (fun x => pyEndsWith x.nombre ".shp") :=
        List.mem_filter.mpr ⟨he, hshp⟩
      rw [hf] at hmem
      exact absurd hmem (List.not_mem_nil e)
  | cons e rest =>
    have hmem : e ∈ archivo.filter (fun x => pyEndsWith x.nombre ".shp") := by
      rw [hf]; exact List.mem_cons_self e rest
    obtain ⟨hearch, heshp⟩ := List.mem_filter.mp hmem
    constructor
    · constructor
      · intro h; exact Except.noConfusion h
      · intro hall
        have hfalse := hall e hearch
        simp only [hfalse] at heshp
        exact Bool.noConfusion heshp
    · intro _
      exact ⟨e, hearch, heshp, rfl, rfl⟩

/-- A projected CRS standing for EPSG:9377 in witnesses. -/
def crs9377 : CRS := ⟨9377, 2, 1, 1, by norm_num⟩

/-- A concrete frame used by the loading witness. -/
def frameW : GeoFrame := ⟨crs9377, [[(3, 5)], [(1, 1), (7, 9)]]⟩

/-- A concrete archive used by the loading witness. -/
def archivoW : List ZipEntry :=
  [⟨"Formalizados.dbf", frameW⟩, ⟨"Formalizados.shp", frameW⟩]

/-- Witness for C4: a concrete archive with a `.shp` entry loads to its
EPSG:4326 reprojection. -/
theorem cargar_shapefile_ok_o_error_witness :
    (∃ e ∈ archivoW, pyEndsWith e.nombre ".shp" = true) ∧
    ∃ e ∈ archivoW, pyEndsWith e.nombre ".shp" = true ∧
      cargar_shapefile_desde_zip archivoW = Except.ok (to_crs e.datos crs4326) ∧
      (to_crs e.datos crs4326).crs = crs4326 := by
  refine ⟨⟨⟨"Formalizados.shp", frameW⟩, ?_, by decide⟩, ?_⟩
  · exact List.mem_cons_of_mem _ (List.mem_cons_self _ _)
  · exact (cargar_shapefile_ok_o_error archivoW).2
      ⟨⟨"Formalizados.shp", frameW⟩,
        List.mem_cons_of_mem _ (List.mem_cons_self _ _), by decide⟩

/-- C2: with a query polygon disjoint from every territory, and likewise
with an empty territory collection, `analyze` returns both outputs empty;
it is a total function, so no exception arises. -/
theorem analyze_disjunto_vacio :
    (∀ (ts : List Territory) (q : Geom),
      (∀ t ∈ ts, t.geom ∩ q = ∅) → analyze ts q = ([], [])) ∧
    (∀ q : Geom, analyze [] q = ([], [])) := by
  constructor
  · intro ts q h
    unfold analyze
    simp only [Prod.mk.injEq]
    constructor
    · rw [List.filter_eq_nil_iff]
      intro t ht
      simp [h t ht]
    · rw [List.filterMap_eq_nil_iff]
      intro t ht
      simp [h t ht]
  · intro q; rfl

/-- A territory disjoint from the witness query. -/
def tsW2 : List Territory := [⟨"A", 5, {(2, 2)}⟩]

/-- The witness query cell, away from every territory. -/
def qW2 : Geom := {(0, 0)}

/-- Witness for C2: a concrete disjoint query yields empty outputs. -/
theorem analyze_disjunto_vacio_witness :
    (∀ t ∈ tsW2, t.geom ∩ qW2 = ∅) ∧ analyze tsW2 qW2 = ([], []) :=
  ⟨by decide, analyze_disjunto_vacio.1 tsW2 qW2 (by decide)⟩

/-- Python `round` of an integer value is that integer. -/
theorem pyRound_intCast (n : ℤ) : pyRound ((n : ℚ)) = n := by
  unfold pyRound
  rw [Int.fract_intCast, if_pos (by norm_num), Int.floor_intCast]

/-- Rounding an integer value to two decimals returns it unchanged. -/
theorem round2_intCast (n : ℤ) : round2 ((n : ℚ)) = n := by
  unfold round2
  rw [show ((n : ℚ) * 100) = (((n * 100 : ℤ)) : ℚ) by push_cast; ring,
    pyRound_intCast]
  push_cast
  ring

/-- The territory of the C1 witness: it declares far less area than its
geometry measures. -/
def tW1 : Territory := ⟨"T", 1/10000, {(0, 0), (1, 0)}⟩

/-- The query of the C1 witness. -/
def qW1 : Geom := {(0, 0), (1, 0)}

/-- The record the analyzer produces for the C1 witness. -/
def recW1 : IntersectionRecord :=
  mkIntersectionRecord tW1 (areaM2 qW1) (tW1.geom ∩ qW1)

theorem recW1_mem : recW1 ∈ (analyze [tW1] qW1).2 := by
  have hne : tW1.geom ∩ qW1 ≠ ∅ := by decide
  exact List.mem_filterMap.mpr
    ⟨tW1, List.mem_cons_self _ _, by rw [if_neg hne]; rfl⟩

theorem recW1_pct : recW1.pct_of_territory = 200 := by
  show round2 (areaM2 (tW1.geom ∩ qW1) / (tW1.area_total * 10000) * 100) = 200
  have harea : areaM2 (tW1.geom ∩ qW1) = 2 := by decide
  rw [harea]
  show round2 ((2 : ℚ) / ((1/10000) * 10000) * 100) = 200
  have hval : ((2 : ℚ) / ((1/10000) * 10000) * 100) = ((200 : ℤ) : ℚ) := by
    norm_num
  rw [hval, round2_intCast]
  norm_num

/-- C1: every record produced by `analyze` satisfies the stated formulas
for `area_ha`, `pct_of_query` and `pct_of_territory`, and the percentage
of the territory is not clamped: a declared `area_total` smaller than the
measured area yields `pct_of_territory` above 100. -/
theorem registros_formulas_derivadas :
    (∀ (ts : List Territory) (q : Geom) (rec : IntersectionRecord),
      rec ∈ (analyze ts q).2 →
        rec.area_ha = rec.area_m2 / 10000 ∧
        rec.pct_of_query = round2 (rec.area_m2 / areaM2 q * 100) ∧
        rec.pct_of_territory =
          round2 (rec.area_m2 / (rec.territory.area_total * 10000) * 100)) ∧
    (∃ (ts : List Territory) (q : Geom) (rec : IntersectionRecord),
      rec ∈ (analyze ts q).2 ∧ 100 < rec.pct_of_territory) := by
  constructor
  · intro ts q rec h
    unfold analyze at h
    simp only [List.mem_filterMap] at h
    obtain ⟨t, ht, hsome⟩ := h
    split at hsome
    · exact Option.noConfusion hsome
    · cases hsome
      exact ⟨rfl, rfl, rfl⟩
  · exact ⟨[tW1], qW1, recW1, recW1_mem, by rw [recW1_pct]; norm_num⟩

/-- Witness for C1: the concrete record of a concrete analysis satisfies
the three formulas. -/
theorem registros_formulas_derivadas_witness :
    recW1 ∈ (analyze [tW1] qW1).2 ∧
    recW1.area_ha = recW1.area_m2 / 10000 ∧
    recW1.pct_of_query = round2 (recW1.area_m2 / areaM2 qW1 * 100) ∧
    recW1.pct_of_territory =
      round2 (recW1.area_m2 / (recW1.territory.area_total * 10000) * 100) :=
  ⟨recW1_mem, registros_formulas_derivadas.1 [tW1] qW1 recW1 recW1_mem⟩

/-- The row of the C5 counterexample: its identifier is `123`. -/
def fila5c : Row := ⟨"123", "N", "T", "D", "M", 1⟩

/-- The filter input of the C5 counterexample: the identifier text is
`1.3`, in which the pandas `contains` treats `.` as a regex wildcard. -/
def filtros5c : Filtros := ⟨"1.3", "", [], [], []⟩

/-- C5 counterexample: with identifier input `1.3`, the code keeps the
row whose identifier is `123` (regex search), although `1.3` is not a
substring of `123` — so the identifier filter is not substring
containment. -/
theorem filtro_id_regex_contraejemplo :
    aplicarFiltros [fila5c] filtros5c = [fila5c] ∧
    ¬ (("1.3" : String).data <:+: ("123" : String).data) := by
  constructor
  · decide
  · intro hinf
    have hc := (contieneSub_iff ("1.3" : String).data ("123" : String).data).mpr hinf
    exact absurd hc (by decide)

/-- C5 (amended): for identifier inputs free of regex metacharacters the
filter chain keeps exactly the rows passing every active filter, with the
identifier test being substring containment, the name test equality, and
the three multiselect tests membership. -/
theorem filtros_caracterizacion (rows : List Row) (f : Filtros)
    (hp : ∀ c ∈ f.id_input.data, esMetachar c = false) (r : Row) :
    r ∈ aplicarFiltros rows f ↔ r ∈ rows ∧
      (f.id_input ≠ "" → f.id_input.data <:+: r.id_ant.data) ∧
      (f.nombre_input ≠ "" → r.nombre = f.nombre_input) ∧
      (f.tipo_sel ≠ [] → r.tipo ∈ f.tipo_sel) ∧
      (f.depto_sel ≠ [] → r.departamen ∈ f.depto_sel) ∧
      (f.mpio_sel ≠ [] → r.municipio ∈ f.mpio_sel) := by
  rw [mem_aplicarFiltros]
  rw [pdStrContains_como_subcadena r.id_ant f.id_input hp]

/-- A concrete row for filter witnesses. -/
def filaW5 : Row := ⟨"054", "Uno", "Resguardo Indigena", "Choco", "Quibdo", 10⟩

/-- A concrete filter input for the C5 witness. -/
def filtrosW5 : Filtros := ⟨"5", "", ["Resguardo Indigena"], [], []⟩

/-- Witness for C5 (amended): a concrete metacharacter-free input. -/
theorem filtros_caracterizacion_witness :
    (∀ c ∈ filtrosW5.id_input.data, esMetachar c = false) ∧
    (filaW5 ∈ aplicarFiltros [filaW5] filtrosW5 ↔ filaW5 ∈ [filaW5] ∧
      (filtrosW5.id_input ≠ "" →
        filtrosW5.id_input.data <:+: filaW5.id_ant.data) ∧
      (filtrosW5.nombre_input ≠ "" → filaW5.nombre = filtrosW5.nombre_input) ∧
      (filtrosW5.tipo_sel ≠ [] → filaW5.tipo ∈ filtrosW5.tipo_sel) ∧
      (filtrosW5.depto_sel ≠ [] → filaW5.departamen ∈ filtrosW5.depto_sel) ∧
      (filtrosW5.mpio_sel ≠ [] → filaW5.municipio ∈ filtrosW5.mpio_sel)) :=
  ⟨by decide, filtros_caracterizacion [filaW5] filtrosW5 (by decide) filaW5⟩

/-- C6 counterexample: a type containing neither keyword is rendered with
`#8B4513`, the color the legend labels community council, although its
normalized type does not contain `comunitario` — so the styling side of
the classification is not an iff on `comunitario`. -/
theorem estilo_consejo_contraejemplo :
    (estilo_tipo "Otro" "Con Relleno").fillColor = "#8B4513" ∧
    claseConsejoSpec "Otro" = false := by
  constructor
  · decide
  · decide

/-- C6 (amended): the `indigena` test is an iff for both the styling and
the statistics (a record is drawn green exactly when its type, lowercased
and stripped, contains `indigena`); the statistics count community
councils exactly by the `comunitario` test, while the styling gives the
community-council color to every non-`indigena` record without testing
`comunitario`. -/
theorem clasificacion_tipo_estilo_y_conteo (t viz : String) :
    ((estilo_tipo t viz).fillColor = "#228B22" ↔ claseIndigenaSpec t = true) ∧
    ((estilo_tipo t viz).fillColor = "#8B4513" ↔ claseIndigenaSpec t = false) ∧
    cuentaIndigenaB t = claseIndigenaSpec t ∧
    cuentaConsejoB t = claseConsejoSpec t := by
  have hnorm : claseIndigenaSpec t = pyIn "indigena" (pyLower (pyStrip t)) := by
    unfold claseIndigenaSpec
    rw [pyStrip_pyLower]
  have hstatI : cuentaIndigenaB t = claseIndigenaSpec t := by
    have h1 : cuentaIndigenaB t = true ↔
        ("indigena" : String).data <:+: (pyStrip (pyLower t)).data :=
      pdStrContains_como_subcadena (tipo_normalizado t) "indigena" (by decide)
    have h2 : claseIndigenaSpec t = true ↔
        ("indigena" : String).data <:+: (pyStrip (pyLower t)).data :=
      contieneSub_iff ("indigena" : String).data (pyStrip (pyLower t)).data
    rw [Bool.eq_iff_iff, h1, h2]
  have hstatC : cuentaConsejoB t = claseConsejoSpec t := by
    have h1 : cuentaConsejoB t = true ↔
        ("comunitario" : String).data <:+: (pyStrip (pyLower t)).data :=
      pdStrContains_como_subcadena (tipo_normalizado t) "comunitario" (by decide)
    have h2 : claseConsejoSpec t = true ↔
        ("comunitario" : String).data <:+: (pyStrip (pyLower t)).data :=
      contieneSub_iff ("comunitario" : String).data (pyStrip (pyLower t)).data
    rw [Bool.eq_iff_iff, h1, h2]
  refine ⟨?_, ?_, hstatI, hstatC⟩
  · rcases Bool.eq_false_or_eq_true (pyIn "indigena" (pyLower (pyStrip t)))
      with hb | hb
    · have hcol : (estilo_tipo t viz).fillColor = "#228B22" := by
        show (if pyIn "indigena" (pyLower (pyStrip t)) then "#228B22"
          else "#8B4513") = _
        simp [hb]
      rw [hcol, hnorm, hb]
      exact ⟨fun _ => rfl, fun _ => rfl⟩
    · have hcol : (estilo_tipo t viz).fillColor = "#8B4513" := by
        show (if pyIn "indigena" (pyLower (pyStrip t)) then "#228B22"
          else "#8B4513") = _
        simp [hb]
      rw [hcol, hnorm, hb]
      exact ⟨fun h => absurd h (by decide), fun h => Bool.noConfusion h⟩
  · rcases Bool.eq_false_or_eq_true (pyIn "indigena" (pyLower (pyStrip t)))
      with hb | hb
    · have hcol : (estilo_tipo t viz).fillColor = "#228B22" := by
        show (if pyIn "indigena" (pyLower (pyStrip t)) then "#228B22"
          else "#8B4513") = _
        simp [hb]
      rw [hcol, hnorm, hb]
      exact ⟨fun h => absurd h (by decide), fun h => Bool.noConfusion h⟩
    · have hcol : (estilo_tipo t viz).fillColor = "#8B4513" := by
        show (if pyIn "indigena" (pyLower (pyStrip t)) then "#228B22"
          else "#8B4513") = _
        simp [hb]
      rw [hcol, hnorm, hb]
      exact ⟨fun _ => rfl, fun _ => rfl⟩

/-- C7: when the map has been requested and the filters match nothing,
the run emits exactly the empty-result warning: no banner, no map, no
table, no statistics and no export of any kind; no exception is raised
(the rendering is a total function). -/
theorem filtros_sin_resultados_aviso (rows : List Row) (f : Filtros)
    (mostrar exportar : Bool) (hm : mostrar = true)
    (hvacio : aplicarFiltros rows f = []) :
    render mostrar exportar (aplicarFiltros rows f) =
      { salidaVacia with advertencia := some avisoSinResultados } := by
  rw [hvacio, hm]
  rfl

/-- The all-unset filter input. -/
def filtrosVacios : Filtros := ⟨"", "", [], [], []⟩

/-- Witness for C7: the empty frame with the map requested produces only
the warning. -/
theorem filtros_sin_resultados_aviso_witness :
    (true : Bool) = true ∧ aplicarFiltros [] filtrosVacios = [] ∧
    render true false (aplicarFiltros [] filtrosVacios) =
      { salidaVacia with advertencia := some avisoSinResultados } :=
  ⟨rfl, rfl, filtros_sin_resultados_aviso [] filtrosVacios true false rfl rfl⟩

/-- C8: the base collection handed to an interaction is returned
untouched, and threading it through any sequence of interactions over the
process lifetime leaves it equal to what was loaded. -/
theorem base_inmutable (base : List Row)
    (acciones : List (Filtros × Bool × Bool)) :
    vidaProceso base acciones = base ∧
    (∀ (f : Filtros) (m e : Bool), (interaccion base f m e).1 = base) := by
  constructor
  · induction acciones with
    | nil => rfl
    | cons i rest ih => exact ih
  · intro f m e
    rfl

/-- One guarded filter step never adds rows. -/
theorem pasoFiltro_sublist {α : Type} (b : Prop) [Decidable b] (l : List α)
    (p : α → Bool) : (if b then l else l.filter p).Sublist l := by
  split_ifs
  · exact List.Sublist.refl l
  · exact List.filter_sublist l

/-- C9: the five filters compose conjunctively — membership in the result
is membership in the base frame plus every active filter's test — each
step only removes rows, the result is a sublist (subset in the original
order) of the base frame, and with every input unset the result is the
whole frame. -/
theorem filtros_conjuntivos (rows : List Row) (f : Filtros) :
    (aplicarFiltros rows f).Sublist rows ∧
    (f.id_input = "" → f.nombre_input = "" → f.tipo_sel = [] →
      f.depto_sel = [] → f.mpio_sel = [] → aplicarFiltros rows f = rows) ∧
    (∀ r : Row, r ∈ aplicarFiltros rows f ↔ r ∈ rows ∧
      (f.id_input ≠ "" → pdStrContains r.id_ant f.id_input = true) ∧
      (f.nombre_input ≠ "" → r.nombre = f.nombre_input) ∧
      (f.tipo_sel ≠ [] → r.tipo ∈ f.tipo_sel) ∧
      (f.depto_sel ≠ [] → r.departamen ∈ f.depto_sel) ∧
      (f.mpio_sel ≠ [] → r.municipio ∈ f.mpio_sel)) := by
  refine ⟨?_, ?_, mem_aplicarFiltros rows f⟩
  · refine List.Sublist.trans (pasoFiltro_sublist _ _ _) ?_
    refine List.Sublist.trans (pasoFiltro_sublist _ _ _) ?_
    refine List.Sublist.trans (pasoFiltro_sublist _ _ _) ?_
    refine List.Sublist.trans (pasoFiltro_sublist _ _ _) ?_
    exact pasoFiltro_sublist _ _ _
  · intro h1 h2 h3 h4 h5
    simp [aplicarFiltros, h1, h2, h3, h4, h5]

/-- Witness for C9: on a concrete frame, the all-unset input returns the
frame itself, a sublist of itself. -/
theorem filtros_conjuntivos_witness :
    (aplicarFiltros [filaW5] filtrosVacios).Sublist [filaW5] ∧
    aplicarFiltros [filaW5] filtrosVacios = [filaW5] :=
  ⟨(filtros_conjuntivos [filaW5] filtrosVacios).1,
   (filtros_conjuntivos [filaW5] filtrosVacios).2.1 rfl rfl rfl rfl rfl⟩

theorem pyRound_mem (q : ℚ) : pyRound q = ⌊q⌋ ∨ pyRound q = ⌊q⌋ + 1 := by
  unfold pyRound
  split_ifs <;> simp

theorem pyRound_abs (q : ℚ) : |((pyRound q : ℤ) : ℚ) - q| ≤ 1/2 := by
  have hq : ((⌊q⌋ : ℤ) : ℚ) = q - Int.fract q := by
    rw [Int.self_sub_fract]
  have h0 : 0 ≤ Int.fract q := Int.fract_nonneg q
  have h1 : Int.fract q < 1 := Int.fract_lt_one q
  unfold pyRound
  split_ifs with ha hb hc
  all_goals rw [abs_le]; constructor <;> push_cast <;> linarith

/-- C10: over the filtered rows with a nonnegative area sum `S`, the
displayed statistic decomposes `S` into `hectareas = int(S)` whole
hectares plus `metros2 = round((S - int(S)) * 10000)` square meters: the
two together reproduce `S` to within half a square meter, `metros2` stays
between 0 and 10000, and the boundary display `metros2 = 10000` occurs
exactly when the fractional part of `S` is at least 0.99995. -/
theorem estadistica_area_descomposicion (rows : List Row)
    (h : 0 ≤ areaTotalSum rows) :
    |((hectareas rows : ℚ) * 10000 + ((metros2 rows : ℤ) : ℚ)) -
        areaTotalSum rows * 10000| ≤ 1/2 ∧
    0 ≤ metros2 rows ∧ metros2 rows ≤ 10000 ∧
    (metros2 rows = 10000 ↔
      99995/100000 ≤ Int.fract (areaTotalSum rows)) := by
  have hhec : hectareas rows = ⌊areaTotalSum rows⌋ := by
    show pyInt (areaTotalSum rows) = _
    unfold pyInt
    rw [if_pos h]
  have hm : metros2 rows = pyRound (Int.fract (areaTotalSum rows) * 10000) := by
    show pyRound ((areaTotalSum rows - ((hectareas rows : ℤ) : ℚ)) * 10000) = _
    rw [hhec, Int.self_sub_floor]
  set y : ℚ := Int.fract (areaTotalSum rows) * 10000 with hydef
  have hy0 : 0 ≤ y := mul_nonneg (Int.fract_nonneg _) (by norm_num)
  have hy1 : y < 10000 := by
    have hlt := mul_lt_mul_of_pos_right (Int.fract_lt_one (areaTotalSum rows))
      (show (0 : ℚ) < 10000 by norm_num)
    rw [hydef]
    linarith
  have hfl0 : (0 : ℤ) ≤ ⌊y⌋ := Int.floor_nonneg.mpr hy0
  have hfl1 : ⌊y⌋ ≤ 9999 := by
    have hlt : ⌊y⌋ < (10000 : ℤ) :=
      Int.floor_lt.mpr (by exact_mod_cast hy1)
    omega
  have hmem := pyRound_mem y
  refine ⟨?_, ?_, ?_, ?_⟩
  · have habs := pyRound_abs y
    have hterm : ((hectareas rows : ℚ) * 10000 + ((metros2 rows : ℤ) : ℚ)) -
        areaTotalSum rows * 10000 = ((pyRound y : ℤ) : ℚ) - y := by
      rw [hm, hhec, hydef]
      have hfr : Int.fract (areaTotalSum rows) =
          areaTotalSum rows - ((⌊areaTotalSum rows⌋ : ℤ) : ℚ) :=
        (Int.self_sub_floor (areaTotalSum rows)).symm
      rw [hfr]
      ring
    rw [hterm]
    exact habs
  · rw [hm]
    rcases hmem with h1 | h1 <;> rw [h1] <;> omega
  · rw [hm]
    rcases hmem with h1 | h1 <;> rw [h1] <;> omega
  · rw [hm]
    have hiff : (99995/100000 : ℚ) ≤ Int.fract (areaTotalSum rows) ↔
        (19999/2 : ℚ) ≤ y := by
      rw [hydef]
      constructor <;> intro <;> linarith
    rw [hiff]
    constructor
    · intro h10000
      by_contra hlt
      push_neg at hlt
      rcases lt_or_ge ⌊y⌋ 9999 with hfl | hfl
      · rcases hmem with h1 | h1 <;> omega
      · have hfle : ⌊y⌋ = 9999 := le_antisymm hfl1 hfl
        have hfr2 : Int.fract y = y - ((9999 : ℤ) : ℚ) := by
          rw [← hfle]
          exact (Int.self_sub_floor y).symm
        have hfr : Int.fract y < 1/2 := by
          rw [hfr2]
          push_cast
          linarith
        have hval : pyRound y = ⌊y⌋ := by
          unfold pyRound
          rw [if_pos hfr]
        omega
    · intro hge
      have hfle : ⌊y⌋ = 9999 := by
        rw [Int.floor_eq_iff]
        constructor
        · push_cast; linarith
        · push_cast; linarith
      have hfr2 : Int.fract y = y - ((9999 : ℤ) : ℚ) := by
        rw [← hfle]
        exact (Int.self_sub_floor y).symm
      have hfr : 1/2 ≤ Int.fract y := by
        rw [hfr2]
        push_cast
        linarith
      unfold pyRound
      rcases lt_or_eq_of_le hfr with hgt | heq
      · rw [if_neg (by linarith), if_pos hgt, hfle]
        norm_num
      · rw [if_neg (by linarith), if_neg (by rw [← heq]; norm_num), hfle]
        norm_num

/-- The C10 witness frame: one row whose area sum is 1.5 hectares. -/
def rows10 : List Row := [⟨"1", "N", "T", "D", "M", 3/2⟩]

/-- Witness for C10: the decomposition holds on the concrete frame. -/
theorem estadistica_area_descomposicion_witness :
    0 ≤ areaTotalSum rows10 ∧
    (|((hectareas rows10 : ℚ) * 10000 + ((metros2 rows10 : ℤ) : ℚ)) -
        areaTotalSum rows10 * 10000| ≤ 1/2 ∧
     0 ≤ metros2 rows10 ∧ metros2 rows10 ≤ 10000 ∧
     (metros2 rows10 = 10000 ↔
       99995/100000 ≤ Int.fract (areaTotalSum rows10))) :=
  ⟨by norm_num [areaTotalSum, rows10],
   estadistica_area_descomposicion rows10 (by norm_num [areaTotalSum, rows10])⟩

end Ancestrario
